import Mathlib

/-!
Verification of the cursor-based pagination engine of the feedreader
repository.

The Go sources are embedded shallowly:

* `getPagination` (storage package, generic over `CursorItem`) becomes a Lean
  function generic over an item type `A` together with its key extractor
  `key : A → String` (the Go `GetPaginationField` method).  Go slice indexing
  panics on an out-of-range index; the embedding returns `Option.none` in
  exactly those situations, so `none` models a Go runtime panic and
  `some (page, cursor)` models a normal return.
* Machine integers (`int`) become `Int`; slice lengths are cast to `Int`
  where the Go code compares them with `limit`.
* `ParseOptions` / `DefaultOptions` work on a model of `url.Values` where
  `Get` returns the first value for a key and `""` when the key is absent,
  exactly as in Go's `net/url`.
* The SQLite window queries of `ListArticles` are modelled as filter/take
  over the collection given in the query's ORDER BY order, and the
  error-propagation skeleton of `doArticleQueries` is modelled with the
  outcome of each fallible step (prepare, query, per-row scan) supplied as
  an input.
-/

namespace Feedreader

/-- The Go struct `Cursor` from the storage package:
`{Next, Prev string; HasNext, HasPrev bool}`. -/
structure Cursor where
  next : String
  prev : String
  hasNext : Bool
  hasPrev : Bool
deriving Repr, DecidableEq

/-- Go slice read `xs[i]` with `i : int`: the value when `0 ≤ i < len xs`,
and `none` (a Go index-out-of-range panic) otherwise. -/
def goIndex {A : Type} (xs : List A) (i : Int) : Option A :=
  if 0 ≤ i then xs.get? i.toNat else none

/-- Go slice expression `xs[:i]` with `i : int`: the first `i` elements when
`0 ≤ i ≤ len xs`, and `none` (a Go slice-bounds panic) otherwise. -/
def goSliceTo {A : Type} (xs : List A) (i : Int) : Option (List A) :=
  if 0 ≤ i ∧ i ≤ (xs.length : Int) then some (xs.take i.toNat) else none

/-- Embedding of `getPagination[T CursorItem](next, prev []T, limit int,
maximumPaginatedValue string) ([]T, Cursor)` from the storage package.

The Go assignments to the four local variables are replayed in source
order; each `if` of the source is one `if` here.  The two indexing
expressions `next[len(next)-1-1]`, `prev[1]` and the trim `next[:limit]`
go through `goIndex` / `goSliceTo`, so the function returns `none` exactly
when the Go code would panic. -/
def getPagination {A : Type} (key : A → String) (next prev : List A)
    (limit : Int) (maximumPaginatedValue : String) :
    Option (List A × Cursor) :=
  let maxLimit : Int := limit + 1
  let nLen : Int := next.length
  let pLen : Int := prev.length
  -- hasNext / nextCursor: zero values, then the three forward `if`s
  let fwd : Bool × String := (false, "")
  let fwd := if nLen = 0 then (false, "") else fwd
  Option.bind
    (if nLen = maxLimit then
      -- return 2nd to last, queries are doing limit+1
      Option.map (fun x => (true, key x)) (goIndex next (nLen - 1 - 1))
    else some fwd) fun fwd =>
  Option.bind
    (if 1 < nLen ∧ nLen ≤ limit - 1 then
      Option.map (fun x => (false, key x)) (goIndex next (nLen - 1))
    else some fwd) fun fwd =>
  -- hasPrev / prevCursor: zero values, then the three backward `if`s
  let bwd : Bool × String := (false, "")
  let bwd := if pLen = 0 then (false, "") else bwd
  Option.bind
    (if pLen = limit then
      Option.map (fun x => (true, key x)) (goIndex prev 1)
    else some bwd) fun bwd =>
  let bwd := if 1 < pLen ∧ pLen ≤ limit - 1 then (true, maximumPaginatedValue)
    else bwd
  -- final trim `next = next[:limit]`
  Option.bind
    (if nLen = maxLimit then goSliceTo next limit else some next) fun next =>
  some (next, { next := fwd.2, prev := bwd.2,
                hasNext := fwd.1, hasPrev := bwd.1 })

/-- The sentinel `maxPublishedDate = "9999999999"` from the storage package,
used as the forward boundary when the cursor is empty and as the
`maximumPaginatedValue` argument of `getPagination`. -/
def maxPublishedDate : String := "9999999999"

/-- Order on single characters by code point (for the ASCII data handled
here, identical to byte order). -/
def charLt (a b : Char) : Bool := a.toNat < b.toNat

/-- Lexicographic order on character lists. -/
def charListLt : List Char → List Char → Bool
  | [], [] => false
  | [], _ :: _ => true
  | _ :: _, [] => false
  | a :: as, b :: bs =>
    if charLt a b then true else if charLt b a then false else charListLt as bs

/-- The comparison SQLite applies to the TEXT `published` column (binary
collation: bytewise lexicographic; on the ASCII keys produced by
`GetPaginationField` this equals the character-wise order used here). -/
def textLt (a b : String) : Bool := charListLt a.data b.data

/-- The Unicode simple lowercase mapping applied per rune by
`strings.ToLower`, on every character the program's downstream comparison
with the ASCII constants `"ascending"` / `"descending"` can observe.
Exactly two code points outside ASCII have a simple lowercase mapping that
lands in ASCII: U+0130 LATIN CAPITAL LETTER I WITH DOT ABOVE (İ → i) and
U+212A KELVIN SIGN (K → k); `Char.toLower` supplies the ASCII `A–Z → a–z`
mappings.  Every other non-ASCII character lowercases (if at all) to a
non-ASCII character and is modelled as the identity, which equality with an
all-ASCII string cannot distinguish. -/
def goCharToLower (c : Char) : Char :=
  if c.toNat = 0x130 then 'i'
  else if c.toNat = 0x212A then 'k'
  else c.toLower

/-- `strings.ToLower`: the Unicode simple lowercase mapping, character by
character (see `goCharToLower`). -/
def strToLower (s : String) : String := ⟨s.data.map goCharToLower⟩

/-- SQL `LIMIT n` as executed by SQLite: the first `n` rows when `n ≥ 0`;
a negative `LIMIT` means "no limit". -/
def sqlLimit {A : Type} (rows : List A) (n : Int) : List A :=
  if n < 0 then rows else rows.take n.toNat

/-- Embedding of `ListArticles(ctx, opts)` from `storage/sqlite.go`.

The articles table is abstracted to the list of pagination keys of its
unread articles (`GetPaginationField`, the decimal rendering of the publish
timestamp, which is also how the TEXT `published` column compares), given in
the order of the queries' `ORDER BY published DESC`, i.e. `rows` is the
collection in its primary (descending-key) order.  The two SQL window
queries become filter/take on that list:

* forward: `published < ?` bound to the cursor (or `maxPublishedDate` when
  the cursor is empty), `ORDER BY published DESC LIMIT limit+1` —
  `sqlLimit (filter (· < boundary) rows) (limit+1)`;
* backward: the inner query `published > ?` is bound to the *raw* cursor,
  `ORDER BY published ASC LIMIT limit+1` (ascending = reverse of `rows`),
  and the outer query re-sorts the window descending (= reverse again).

The scanned rows are handed to `getPagination` exactly as in the source;
`none` again models a Go runtime panic. -/
def ListArticles (rows : List String) (cursor : String) (limit : Int) :
    Option (List String × Cursor) :=
  let nextPagination := if cursor = "" then maxPublishedDate else cursor
  let nextArticles :=
    sqlLimit (rows.filter (fun k => textLt k nextPagination)) (limit + 1)
  let prevArticles :=
    (sqlLimit ((rows.reverse).filter (fun k => textLt cursor k)) (limit + 1)).reverse
  getPagination (fun k => k) nextArticles prevArticles limit maxPublishedDate

/-- `url.Values` as consumed through `req.Get`: an association list of
query parameters. -/
def Values : Type := List (String × String)

/-- `url.Values.Get`: the first value associated with the key, and `""`
when the key is absent. -/
def Values.get (v : Values) (key : String) : String :=
  match v.find? (fun p => p.1 == key) with
  | some p => p.2
  | none => ""

/-- Decimal digit run of `strconv.Atoi`: consumes the remaining characters,
failing on any non-digit. -/
def parseDigits : List Char → Nat → Option Nat
  | [], acc => some acc
  | c :: cs, acc =>
    if c.isDigit then parseDigits cs (acc * 10 + (c.toNat - 48)) else none

/-- 64-bit `int` range check of `strconv.Atoi`: Go returns `ErrRange`
(a non-nil error) outside `[-2^63, 2^63)`. -/
def intRange (i : Int) : Option Int :=
  if -(2 ^ 63) ≤ i ∧ i < 2 ^ 63 then some i else none

/-- Embedding of `strconv.Atoi`: optional sign, then a non-empty run of
decimal digits, within the 64-bit range; `none` wherever Go returns a
non-nil error. -/
def atoi (s : String) : Option Int :=
  match s.data with
  | [] => none
  | '+' :: rest =>
    if rest.isEmpty then none
    else (parseDigits rest 0).bind fun n => intRange (n : Int)
  | '-' :: rest =>
    if rest.isEmpty then none
    else (parseDigits rest 0).bind fun n => intRange (-(n : Int))
  | cs => (parseDigits cs 0).bind fun n => intRange (n : Int)

/-- The Go string type `order` of the storage package. -/
abbrev order : Type := String

/-- `Ascending order = "ascending"`. -/
def Ascending : order := "ascending"

/-- `Descending order = "descending"`. -/
def Descending : order := "descending"

/-- The `Options` struct of the storage package. -/
structure Options where
  Cursor : String
  Order : order
  Limit : Int
deriving Repr, DecidableEq

/-- `DefaultOptions()` from the storage package. -/
def DefaultOptions : Options :=
  { Limit := 10, Cursor := "", Order := Descending }

/-- Embedding of `ParseOptions(req url.Values) *Options`.
`strings.ToLower` is modelled by `strToLower`. -/
def ParseOptions (req : Values) : Options :=
  let opts := DefaultOptions
  let limit := req.get "limit"
  let opts :=
    if limit ≠ "" then
      match atoi limit with
      | some i => { opts with Limit := i }
      | none => opts
    else opts
  let opts := { opts with Cursor := req.get "cursor" }
  let ord := req.get "order"
  let opts :=
    if ord ≠ "" then
      if strToLower ord = (Descending : String) then { opts with Order := Descending }
      else if strToLower ord = (Ascending : String) then { opts with Order := Ascending }
      else opts
    else opts
  opts

/-- The `ArticleList` struct (`Cursor` plus the page rows), generic in the
row type because only the control flow of the query runner matters here. -/
structure ArticleList (A : Type) where
  cursor : Cursor
  articles : List A
deriving Repr, DecidableEq

/-- `ArticleList{Articles: make([]*Article, 0)}`: the zero-cursor, no-items
value every error path of `doArticleQueries` returns. -/
def emptyArticleList (A : Type) : ArticleList A :=
  { cursor := { next := "", prev := "", hasNext := false, hasPrev := false },
    articles := [] }

/-- The row-scan loop of `doArticleQueries`: each row either scans to a
value or fails; the first failing `Scan` aborts the loop with its error. -/
def scanRows {E A : Type} : List (Except E A) → Except E (List A)
  | [] => Except.ok []
  | Except.error e :: _ => Except.error e
  | Except.ok a :: rest => (scanRows rest).map (fun l => a :: l)

/-- The first scan error in a list of row outcomes, if any. -/
def rowErr {E A : Type} : List (Except E A) → Option E
  | [] => none
  | Except.error e :: _ => some e
  | Except.ok _ :: rest => rowErr rest

/-- Embedding of `doArticleQueries(ctx, nextQuery, prevQuery, cursor, limit)`
from `storage/sqlite.go` (`doFeedQueries` has the same control flow).

The six fallible store interactions — `PrepareContext`, `QueryContext` and
the per-row `Scan` loop, for the forward and then the backward query — are
abstracted as inputs: an optional error for each prepare/query call and a
list of per-row scan outcomes for each window.  Every error return of the
source hands back the untouched `articleList` (empty rows, zero cursor)
together with the error; a successful run hands the two scanned windows to
`getPagination`.  The outer `none` again models a Go panic. -/
def doArticleQueries {E A : Type} (key : A → String)
    (nextPrepareErr nextQueryErr : Option E) (nextRowOutcomes : List (Except E A))
    (prevPrepareErr prevQueryErr : Option E) (prevRowOutcomes : List (Except E A))
    (limit : Int) : Option (ArticleList A × Option E) :=
  match nextPrepareErr with
  | some e => some (emptyArticleList A, some e)
  | none =>
  match nextQueryErr with
  | some e => some (emptyArticleList A, some e)
  | none =>
  match scanRows nextRowOutcomes with
  | Except.error e => some (emptyArticleList A, some e)
  | Except.ok nextArticles =>
  match prevPrepareErr with
  | some e => some (emptyArticleList A, some e)
  | none =>
  match prevQueryErr with
  | some e => some (emptyArticleList A, some e)
  | none =>
  match scanRows prevRowOutcomes with
  | Except.error e => some (emptyArticleList A, some e)
  | Except.ok prevArticles =>
  match getPagination key nextArticles prevArticles limit maxPublishedDate with
  | none => none
  | some (page, cur) => some ({ cursor := cur, articles := page }, none)

/-- The first failure among the six fallible store interactions of
`doArticleQueries`, in the evaluation order of the source. -/
def firstFailure {E A : Type}
    (nextPrepareErr nextQueryErr : Option E) (nextRowOutcomes : List (Except E A))
    (prevPrepareErr prevQueryErr : Option E) (prevRowOutcomes : List (Except E A)) :
    Option E :=
  match nextPrepareErr with
  | some e => some e
  | none =>
  match nextQueryErr with
  | some e => some e
  | none =>
  match rowErr nextRowOutcomes with
  | some e => some e
  | none =>
  match prevPrepareErr with
  | some e => some e
  | none =>
  match prevQueryErr with
  | some e => some e
  | none => rowErr prevRowOutcomes

/-! ## Theorems -/

/-- C2: for every positive limit and every forward window of length exactly
limit + 1, `getPagination` returns `hasNext = true`, `next` equal to the
pagination key of the window element at index `limit - 1` (the last element
before the lookahead row), and a page equal to the first `limit` elements of
the forward window. -/
theorem C2_full_forward_window {A : Type} (key : A → String)
    (next prev : List A) (limit : Int) (m : String) (hl : 0 < limit)
    (hn : (next.length : Int) = limit + 1) :
    ∀ page c, getPagination key next prev limit m = some (page, c) →
      c.hasNext = true ∧ page = next.take limit.toNat ∧
      ∃ x, next.get? (limit - 1).toNat = some x ∧ c.next = key x := by
  intro page c h
  have c1 : ¬((next.length : Int) = 0) := by omega
  have c3 : ¬(1 < (next.length : Int) ∧ (next.length : Int) ≤ limit - 1) := by
    omega
  have hix : (0 : Int) ≤ (next.length : Int) - 1 - 1 := by omega
  have hlt : ((next.length : Int) - 1 - 1).toNat < next.length := by omega
  have hsl : (0 : Int) ≤ limit ∧ limit ≤ (next.length : Int) := by omega
  simp only [getPagination, if_neg c1, if_pos hn, if_neg c3, goIndex,
    goSliceTo, if_pos hix, if_pos hsl, List.get?_eq_get hlt,
    Option.map_some', Option.some_bind] at h
  rw [Option.bind_eq_some] at h
  obtain ⟨bwd, -, hb⟩ := h
  simp only [Option.some_bind, Option.some.injEq, Prod.mk.injEq] at hb
  obtain ⟨hpage, hc⟩ := hb
  subst hc
  refine ⟨rfl, hpage.symm,
    next.get ⟨((next.length : Int) - 1 - 1).toNat, hlt⟩, ?_, rfl⟩
  rw [← List.get?_eq_get hlt]
  congr 1
  omega

/-- Witness for C2 at `key = id`, `next = ["b", "a"]`, `prev = []`,
`limit = 1`. -/
theorem C2_full_forward_window_witness :
    ({ next := "b", prev := "", hasNext := true, hasPrev := false } :
        Cursor).hasNext = true ∧
    (["b"] : List String) = (["b", "a"] : List String).take (1 : Int).toNat ∧
    ∃ x, (["b", "a"] : List String).get? ((1 : Int) - 1).toNat = some x ∧
      ({ next := "b", prev := "", hasNext := true, hasPrev := false } :
          Cursor).next = (fun s => s) x :=
  C2_full_forward_window (fun s => s) ["b", "a"] [] 1 "M" (by decide)
    (by decide) ["b"]
    { next := "b", prev := "", hasNext := true, hasPrev := false } (by decide)

/-- C3: for every positive limit and every forward window whose length n
satisfies 1 < n ≤ limit - 1, `getPagination` returns `hasNext = false`,
`next` equal to the pagination key of the last window element, and a page
equal to the entire forward window. -/
theorem C3_short_forward_window {A : Type} (key : A → String)
    (next prev : List A) (limit : Int) (m : String) (hl : 0 < limit)
    (h1 : 1 < (next.length : Int)) (h2 : (next.length : Int) ≤ limit - 1) :
    ∀ page c, getPagination key next prev limit m = some (page, c) →
      c.hasNext = false ∧ page = next ∧
      ∃ x, next.get? (next.length - 1) = some x ∧ c.next = key x := by
  intro page c h
  have c1 : ¬((next.length : Int) = 0) := by omega
  have c2 : ¬((next.length : Int) = limit + 1) := by omega
  have c3 : 1 < (next.length : Int) ∧ (next.length : Int) ≤ limit - 1 :=
    ⟨h1, h2⟩
  have hix : (0 : Int) ≤ (next.length : Int) - 1 := by omega
  have hlt : ((next.length : Int) - 1).toNat < next.length := by omega
  simp only [getPagination, if_neg c1, if_neg c2, if_pos c3, goIndex,
    if_pos hix, List.get?_eq_get hlt, Option.map_some', Option.some_bind] at h
  rw [Option.bind_eq_some] at h
  obtain ⟨bwd, -, hb⟩ := h
  simp only [Option.some_bind, Option.some.injEq, Prod.mk.injEq] at hb
  obtain ⟨hpage, hc⟩ := hb
  subst hc
  refine ⟨rfl, hpage.symm,
    next.get ⟨((next.length : Int) - 1).toNat, hlt⟩, ?_, rfl⟩
  rw [← List.get?_eq_get hlt]
  congr 1
  omega

/-- Witness for C3 at `key = id`, `next = ["b", "a"]`, `prev = []`,
`limit = 3`. -/
theorem C3_short_forward_window_witness :
    ({ next := "a", prev := "", hasNext := false, hasPrev := false } :
        Cursor).hasNext = false ∧
    (["b", "a"] : List String) = (["b", "a"] : List String) ∧
    ∃ x, (["b", "a"] : List String).get?
        ((["b", "a"] : List String).length - 1) = some x ∧
      ({ next := "a", prev := "", hasNext := false, hasPrev := false } :
          Cursor).next = (fun s => s) x :=
  C3_short_forward_window (fun s => s) ["b", "a"] [] 3 "M" (by decide)
    (by decide) (by decide) ["b", "a"]
    { next := "a", prev := "", hasNext := false, hasPrev := false } (by decide)

/-- C10: for every limit ≥ 2 and every forward window of length exactly
limit (one short of the lookahead threshold), `getPagination` returns
`hasNext = false`, `next = ""`, and a page equal to the entire untrimmed
forward window. -/
theorem C10_exact_limit_forward_window {A : Type} (key : A → String)
    (next prev : List A) (limit : Int) (m : String) (hl : 2 ≤ limit)
    (hn : (next.length : Int) = limit) :
    ∀ page c, getPagination key next prev limit m = some (page, c) →
      c.hasNext = false ∧ c.next = "" ∧ page = next := by
  intro page c h
  have c1 : ¬((next.length : Int) = 0) := by omega
  have c2 : ¬((next.length : Int) = limit + 1) := by omega
  have c3 : ¬(1 < (next.length : Int) ∧ (next.length : Int) ≤ limit - 1) := by
    omega
  simp only [getPagination, if_neg c1, if_neg c2, if_neg c3, ite_self,
    Option.some_bind] at h
  rw [Option.bind_eq_some] at h
  obtain ⟨bwd, -, hb⟩ := h
  simp only [Option.some_bind, Option.some.injEq, Prod.mk.injEq] at hb
  obtain ⟨hpage, hc⟩ := hb
  subst hc
  exact ⟨rfl, rfl, hpage.symm⟩

/-- Witness for C10 at `key = id`, `next = ["b", "a"]`, `prev = []`,
`limit = 2`. -/
theorem C10_exact_limit_forward_window_witness :
    ({ next := "", prev := "", hasNext := false, hasPrev := false } :
        Cursor).hasNext = false ∧
    ({ next := "", prev := "", hasNext := false, hasPrev := false } :
        Cursor).next = "" ∧
    (["b", "a"] : List String) = (["b", "a"] : List String) :=
  C10_exact_limit_forward_window (fun s => s) ["b", "a"] [] 2 "M" (by decide)
    (by decide) ["b", "a"]
    { next := "", prev := "", hasNext := false, hasPrev := false } (by decide)

/-- C6: for every positive limit and every forward window of length at most
limit + 1, the page of items returned by `getPagination` has length at most
limit. -/
theorem C6_page_never_exceeds_limit {A : Type} (key : A → String)
    (next prev : List A) (limit : Int) (m : String) (hl : 0 < limit)
    (hn : (next.length : Int) ≤ limit + 1) :
    ∀ page c, getPagination key next prev limit m = some (page, c) →
      (page.length : Int) ≤ limit := by
  intro page c h
  by_cases hmax : (next.length : Int) = limit + 1
  · have c1 : ¬((next.length : Int) = 0) := by omega
    have c3 : ¬(1 < (next.length : Int) ∧ (next.length : Int) ≤ limit - 1) := by
      omega
    have hix : (0 : Int) ≤ (next.length : Int) - 1 - 1 := by omega
    have hlt : ((next.length : Int) - 1 - 1).toNat < next.length := by omega
    have hsl : (0 : Int) ≤ limit ∧ limit ≤ (next.length : Int) := by omega
    simp only [getPagination, if_neg c1, if_pos hmax, if_neg c3, goIndex,
      goSliceTo, if_pos hix, if_pos hsl, List.get?_eq_get hlt,
      Option.map_some', Option.some_bind] at h
    rw [Option.bind_eq_some] at h
    obtain ⟨bwd, -, hb⟩ := h
    simp only [Option.some_bind, Option.some.injEq, Prod.mk.injEq] at hb
    obtain ⟨hpage, -⟩ := hb
    have : page.length = min limit.toNat next.length := by
      rw [← hpage, List.length_take]
    omega
  · simp only [getPagination, if_neg hmax] at h
    rw [Option.bind_eq_some] at h
    obtain ⟨f1, -, h⟩ := h
    rw [Option.bind_eq_some] at h
    obtain ⟨f2, -, h⟩ := h
    rw [Option.bind_eq_some] at h
    obtain ⟨bwd, -, h⟩ := h
    rw [Option.bind_eq_some] at h
    obtain ⟨pg, hpg, h⟩ := h
    simp only [Option.some.injEq] at hpg
    simp only [Option.some.injEq, Prod.mk.injEq] at h
    obtain ⟨hpage, -⟩ := h
    subst hpg
    subst hpage
    omega

/-- Witness for C6 at `key = id`, `next = ["c", "b", "a"]`, `prev = []`,
`limit = 2`. -/
theorem C6_page_never_exceeds_limit_witness :
    (((["c", "b"] : List String)).length : Int) ≤ 2 :=
  C6_page_never_exceeds_limit (fun s => s) ["c", "b", "a"] [] 2 "M"
    (by decide) (by decide) ["c", "b"]
    { next := "b", prev := "", hasNext := true, hasPrev := false } (by decide)

/-- C5: for every positive limit and every backward window of length exactly
limit + 1 (the full row budget of the backward SQL query, which uses
LIMIT limit+1), `getPagination` returns normally with `hasPrev = false` and
`prev = ""`: a completely full backward window falls through every
backward-side branch to the zero values. -/
theorem C5_full_backward_window {A : Type} (key : A → String)
    (next prev : List A) (limit : Int) (m : String) (hl : 0 < limit)
    (hp : (prev.length : Int) = limit + 1) :
    ∃ page c, getPagination key next prev limit m = some (page, c) ∧
      c.hasPrev = false ∧ c.prev = "" := by
  have p2 : ¬((prev.length : Int) = limit) := by omega
  have p3 : ¬(1 < (prev.length : Int) ∧ (prev.length : Int) ≤ limit - 1) := by
    omega
  by_cases hmax : (next.length : Int) = limit + 1
  · have c1 : ¬((next.length : Int) = 0) := by omega
    have c3 : ¬(1 < (next.length : Int) ∧ (next.length : Int) ≤ limit - 1) := by
      omega
    have hix : (0 : Int) ≤ (next.length : Int) - 1 - 1 := by omega
    have hlt : ((next.length : Int) - 1 - 1).toNat < next.length := by omega
    have hsl : (0 : Int) ≤ limit ∧ limit ≤ (next.length : Int) := by omega
    simp only [getPagination, if_neg c1, if_pos hmax, if_neg c3, if_neg p2,
      if_neg p3, goIndex, goSliceTo, if_pos hix, if_pos hsl,
      List.get?_eq_get hlt, Option.map_some', Option.some_bind, ite_self]
    exact ⟨_, _, rfl, rfl, rfl⟩
  · by_cases c3 : 1 < (next.length : Int) ∧ (next.length : Int) ≤ limit - 1
    · have hix : (0 : Int) ≤ (next.length : Int) - 1 := by omega
      have hlt : ((next.length : Int) - 1).toNat < next.length := by omega
      simp only [getPagination, if_neg hmax, if_pos c3, if_neg p2, if_neg p3,
        goIndex, if_pos hix, List.get?_eq_get hlt, Option.map_some',
        Option.some_bind, ite_self]
      exact ⟨_, _, rfl, rfl, rfl⟩
    · simp only [getPagination, if_neg hmax, if_neg c3, if_neg p2, if_neg p3,
        Option.some_bind, ite_self]
      exact ⟨_, _, rfl, rfl, rfl⟩

/-- Witness for C5 at `key = id`, `next = []`, `prev = ["c", "b", "a"]`,
`limit = 2`. -/
theorem C5_full_backward_window_witness :
    ∃ page c,
      getPagination (fun s : String => s) [] ["c", "b", "a"] 2 "M" =
        some (page, c) ∧ c.hasPrev = false ∧ c.prev = "" :=
  C5_full_backward_window (fun s => s) [] ["c", "b", "a"] 2 "M" (by decide)
    (by decide)

/-- C4, failing input: at `limit = 1` a backward window containing exactly
one element does not make `getPagination` return `hasPrev = false` — the
`len(prev) == limit` branch reads `prev[1]` of a one-element slice and the
call panics (models as `none`), so the function does not return at all. -/
theorem C4_backward_singleton_limit_one_panics :
    getPagination (fun s : String => s) [] ["a"] 1 "M" = none := by decide

/-- C1, failing input: paginating the one-element collection `["5"]` with
`limit = 1` from the empty start cursor does not visit the element — the
very first `ListArticles` call panics (models as `none`): its backward
window `published > ""` returns that single row, and `getPagination` reads
`prev[1]` out of range. -/
theorem C1_traversal_limit_one_panics :
    ListArticles ["5"] "" 1 = none := by decide

/-- The `Limit` field produced by `ParseOptions`, in closed form. -/
theorem ParseOptions_Limit (req : Values) :
    (ParseOptions req).Limit =
      if req.get "limit" = "" then 10
      else
        match atoi (req.get "limit") with
        | some i => i
        | none => 10 := by
  by_cases he : req.get "limit" = "" <;>
    cases hat : atoi (req.get "limit") <;>
      simp only [ParseOptions, DefaultOptions, he, hat, ne_eq,
        not_true_eq_false, not_false_eq_true, if_true, if_false, ite_true,
        ite_false] <;>
      split_ifs <;> rfl

/-- The `Cursor` field produced by `ParseOptions`, in closed form. -/
theorem ParseOptions_Cursor (req : Values) :
    (ParseOptions req).Cursor = req.get "cursor" := by
  by_cases he : req.get "limit" = "" <;>
    cases hat : atoi (req.get "limit") <;>
      simp only [ParseOptions, DefaultOptions, he, hat, ne_eq,
        not_true_eq_false, not_false_eq_true, if_true, if_false, ite_true,
        ite_false] <;>
      split_ifs <;> rfl

/-- The `Order` field produced by `ParseOptions`, in closed form. -/
theorem ParseOptions_Order (req : Values) :
    (ParseOptions req).Order =
      if req.get "order" = "" then Descending
      else if strToLower (req.get "order") = (Descending : String) then
        Descending
      else if strToLower (req.get "order") = (Ascending : String) then
        Ascending
      else Descending := by
  by_cases he : req.get "limit" = "" <;>
    cases hat : atoi (req.get "limit") <;>
      simp only [ParseOptions, DefaultOptions, he, hat, ne_eq,
        not_true_eq_false, not_false_eq_true, if_true, if_false, ite_true,
        ite_false] <;>
      split_ifs <;> rfl

/-- C7, counterexample: `ParseOptions` does not keep `Limit` positive — for
the raw input `limit = "0"` the parsed value 0 is stored verbatim. -/
theorem C7_limit_zero_accepted :
    (ParseOptions [("limit", "0")]).Limit = 0 ∧
      ¬(0 < (ParseOptions [("limit", "0")]).Limit) := by decide

/-- C7, amended: `ParseOptions` leaves `Limit` at the (positive) default 10
exactly when the `limit` parameter is absent or not parseable as an
integer; whenever it parses, the parsed integer is stored verbatim, with no
positivity check (so `limit = "0"` or `limit = "-3"` produce non-positive
values). -/
theorem C7_limit_parsed_verbatim (req : Values) :
    (atoi (req.get "limit") = none → (ParseOptions req).Limit = 10) ∧
    (∀ i, atoi (req.get "limit") = some i → (ParseOptions req).Limit = i) := by
  constructor
  · intro hnone
    rw [ParseOptions_Limit]
    split_ifs
    · rfl
    · simp only [hnone]
  · intro i hi
    have he : ¬(req.get "limit" = "") := by
      intro he
      rw [he] at hi
      rw [show atoi "" = none from rfl] at hi
      cases hi
    rw [ParseOptions_Limit, if_neg he]
    simp only [hi]

/-- Witness for C7's amended claim at `req = [("limit", "-3")]`. -/
theorem C7_limit_parsed_verbatim_witness :
    (ParseOptions [("limit", "-3")]).Limit = -3 :=
  (C7_limit_parsed_verbatim [("limit", "-3")]).2 (-3) (by decide)

/-- C8: `ParseOptions` never fails: absent or unparseable `limit` yields
`Limit = 10`; absent `cursor` yields `Cursor = ""`; absent `order`, or an
`order` that case-folds to neither "ascending" nor "descending", yields
`Order = Descending`. -/
theorem C8_lenient_option_parsing (req : Values) :
    ((req.get "limit" = "" ∨ atoi (req.get "limit") = none) →
      (ParseOptions req).Limit = 10) ∧
    (req.get "cursor" = "" → (ParseOptions req).Cursor = "") ∧
    ((req.get "order" = "" ∨
        (strToLower (req.get "order") ≠ (Descending : String) ∧
         strToLower (req.get "order") ≠ (Ascending : String))) →
      (ParseOptions req).Order = Descending) := by
  refine ⟨?_, ?_, ?_⟩
  · intro h
    rw [ParseOptions_Limit]
    rcases h with he | hnone
    · rw [if_pos he]
    · split_ifs
      · rfl
      · simp only [hnone]
  · intro hc
    rw [ParseOptions_Cursor, hc]
  · intro ho
    rw [ParseOptions_Order]
    split_ifs with h1 h2 h3
    · rfl
    · rfl
    · rcases ho with ho | ho
      · exact absurd ho h1
      · exact absurd h3 ho.2
    · rfl

/-- Witness for C8 at `req = [("limit", "oops"), ("order", "sideways")]`. -/
theorem C8_lenient_option_parsing_witness :
    (ParseOptions [("limit", "oops"), ("order", "sideways")]).Limit = 10 ∧
    (ParseOptions [("limit", "oops"), ("order", "sideways")]).Cursor = "" ∧
    (ParseOptions [("limit", "oops"), ("order", "sideways")]).Order =
      Descending :=
  ⟨(C8_lenient_option_parsing [("limit", "oops"), ("order", "sideways")]).1
      (Or.inr (by decide)),
   (C8_lenient_option_parsing [("limit", "oops"), ("order", "sideways")]).2.1
      (by decide),
   (C8_lenient_option_parsing [("limit", "oops"), ("order", "sideways")]).2.2
      (Or.inr ⟨by decide, by decide⟩)⟩

/-- A scan loop whose row outcomes contain an error aborts with the first
such error. -/
theorem scanRows_error_of_rowErr {E A : Type} (l : List (Except E A)) (e : E)
    (h : rowErr l = some e) : scanRows l = Except.error e := by
  induction l with
  | nil => cases h
  | cons x rest ih =>
    cases x with
    | error e0 =>
      simp only [rowErr, Option.some.injEq] at h
      subst h
      rfl
    | ok a =>
      simp only [rowErr] at h
      simp only [scanRows, ih h, Except.map]

/-- A scan loop with no failing row outcome succeeds. -/
theorem scanRows_ok_of_rowErr_none {E A : Type} (l : List (Except E A))
    (h : rowErr l = none) : ∃ v, scanRows l = Except.ok v := by
  induction l with
  | nil => exact ⟨[], rfl⟩
  | cons x rest ih =>
    cases x with
    | error e0 => cases h
    | ok a =>
      simp only [rowErr] at h
      obtain ⟨v, hv⟩ := ih h
      exact ⟨a :: v, by simp only [scanRows, hv, Except.map]⟩

/-- C9: whenever any of the fallible store interactions of the paginated
list fails (forward or backward window, at prepare, execution or row scan),
`doArticleQueries` returns that first failure together with a result
containing no items and a zero-value cursor — a page populated from only
one successful window is never returned. -/
theorem C9_query_failure_returns_empty_list {E A : Type} (key : A → String)
    (npe nqe : Option E) (nro : List (Except E A))
    (ppe pqe : Option E) (pro : List (Except E A)) (limit : Int) (e : E)
    (h : firstFailure npe nqe nro ppe pqe pro = some e) :
    doArticleQueries key npe nqe nro ppe pqe pro limit =
      some (emptyArticleList A, some e) := by
  cases npe with
  | some e0 =>
    simp only [firstFailure, Option.some.injEq] at h
    subst h
    rfl
  | none =>
  cases nqe with
  | some e0 =>
    simp only [firstFailure, Option.some.injEq] at h
    subst h
    rfl
  | none =>
  cases hre : rowErr (A := A) nro with
  | some e0 =>
    simp only [firstFailure, hre, Option.some.injEq] at h
    subst h
    simp only [doArticleQueries, scanRows_error_of_rowErr nro e0 hre]
  | none =>
  obtain ⟨v, hv⟩ := scanRows_ok_of_rowErr_none nro hre
  simp only [firstFailure, hre] at h
  cases ppe with
  | some e0 =>
    simp only [Option.some.injEq] at h
    subst h
    simp only [doArticleQueries, hv]
  | none =>
  cases pqe with
  | some e0 =>
    simp only [Option.some.injEq] at h
    subst h
    simp only [doArticleQueries, hv]
  | none =>
  cases hrp : rowErr (A := A) pro with
  | some e0 =>
    rw [hrp, Option.some.injEq] at h
    subst h
    simp only [doArticleQueries, hv, scanRows_error_of_rowErr pro e0 hrp]
  | none =>
    rw [hrp] at h
    cases h

/-- Witness for C9: the backward query fails with error 7 while the forward
query succeeded; the result is the empty list with the zero cursor plus
that error. -/
theorem C9_query_failure_returns_empty_list_witness :
    doArticleQueries (E := Nat) (fun s : String => s) none none
        [Except.ok "5"] none (some 7) [] 2 =
      some (emptyArticleList String, some 7) :=
  C9_query_failure_returns_empty_list (fun s : String => s) none none
    [Except.ok "5"] none (some 7) [] 2 7 (by decide)

end Feedreader
